import Mathlib

/-
Verification of the 2D continuous collision-detection core of the Saga
repository (module saga_collision together with saga_utils in
src/doomclone/app.rs). The Rust code computes with f32; the embedding uses
real numbers, so every algebraic statement below is about the ideal
real-arithmetic behaviour of the algorithms, faithful to the control flow
of the source line by line.
-/

namespace Saga

noncomputable section

open Classical

/-- Planar vector, mirroring cgmath Vector2 of f32 as used by the collision
    module. -/
structure Vec2 where
  x : ℝ
  y : ℝ

/-- Spatial vector, mirroring cgmath Vector3 of f32: the game stores positions
    in 3D and projects onto the xz plane for collision. -/
structure Vec3 where
  x : ℝ
  y : ℝ
  z : ℝ

instance : Zero Vec2 := ⟨⟨0, 0⟩⟩

instance : Add Vec2 := ⟨fun u v => ⟨u.x + v.x, u.y + v.y⟩⟩

instance : Sub Vec2 := ⟨fun u v => ⟨u.x - v.x, u.y - v.y⟩⟩

instance : Neg Vec2 := ⟨fun v => ⟨-v.x, -v.y⟩⟩

instance : SMul ℝ Vec2 := ⟨fun t v => ⟨t * v.x, t * v.y⟩⟩

instance : Add Vec3 := ⟨fun u v => ⟨u.x + v.x, u.y + v.y, u.z + v.z⟩⟩

instance : SMul ℝ Vec3 := ⟨fun t v => ⟨t * v.x, t * v.y, t * v.z⟩⟩

@[simp] theorem Vec2.zero_def : (0 : Vec2) = ⟨0, 0⟩ := rfl

@[simp] theorem Vec2.zero_x : (0 : Vec2).x = 0 := rfl

@[simp] theorem Vec2.zero_y : (0 : Vec2).y = 0 := rfl

@[simp] theorem Vec2.add_x (u v : Vec2) : (u + v).x = u.x + v.x := rfl

@[simp] theorem Vec2.add_y (u v : Vec2) : (u + v).y = u.y + v.y := rfl

@[simp] theorem Vec2.sub_x (u v : Vec2) : (u - v).x = u.x - v.x := rfl

@[simp] theorem Vec2.sub_y (u v : Vec2) : (u - v).y = u.y - v.y := rfl

@[simp] theorem Vec2.neg_x (v : Vec2) : (-v).x = -v.x := rfl

@[simp] theorem Vec2.neg_y (v : Vec2) : (-v).y = -v.y := rfl

@[simp] theorem Vec2.smul_x (t : ℝ) (v : Vec2) : (t • v).x = t * v.x := rfl

@[simp] theorem Vec2.smul_y (t : ℝ) (v : Vec2) : (t • v).y = t * v.y := rfl

@[simp] theorem Vec3.add3_x (u v : Vec3) : (u + v).x = u.x + v.x := rfl

@[simp] theorem Vec3.add3_y (u v : Vec3) : (u + v).y = u.y + v.y := rfl

@[simp] theorem Vec3.add_z (u v : Vec3) : (u + v).z = u.z + v.z := rfl

@[simp] theorem Vec3.smul3_x (t : ℝ) (v : Vec3) : (t • v).x = t * v.x := rfl

@[simp] theorem Vec3.smul3_y (t : ℝ) (v : Vec3) : (t • v).y = t * v.y := rfl

@[simp] theorem Vec3.smul_z (t : ℝ) (v : Vec3) : (t • v).z = t * v.z := rfl

@[simp] theorem Vec2.add_def (a b c d : ℝ) :
    Vec2.mk a b + Vec2.mk c d = ⟨a + c, b + d⟩ := rfl

@[simp] theorem Vec2.sub_def (a b c d : ℝ) :
    Vec2.mk a b - Vec2.mk c d = ⟨a - c, b - d⟩ := rfl

@[simp] theorem Vec2.neg_def (a b : ℝ) : -Vec2.mk a b = ⟨-a, -b⟩ := rfl

@[simp] theorem Vec2.smul_def (t a b : ℝ) : t • Vec2.mk a b = ⟨t * a, t * b⟩ := rfl

@[simp] theorem Vec3.add3_def (a b c d e f : ℝ) :
    Vec3.mk a b c + Vec3.mk d e f = ⟨a + d, b + e, c + f⟩ := rfl

@[simp] theorem Vec3.smul3_def (t a b c : ℝ) :
    t • Vec3.mk a b c = ⟨t * a, t * b, t * c⟩ := rfl

/-- Projection onto the ground plane: cgmath swizzle position.xz(). -/
def Vec3.xz (v : Vec3) : Vec2 := ⟨v.x, v.z⟩

@[simp] theorem Vec3.xz_def (a b c : ℝ) : (Vec3.mk a b c).xz = ⟨a, c⟩ := rfl

/-- Dot product, cgmath dot. -/
def dot (a b : Vec2) : ℝ := a.x * b.x + a.y * b.y

/-- Scalar 2D cross product, saga_utils cross_2d. -/
def cross_2d (a b : Vec2) : ℝ := a.x * b.y - a.y * b.x

/-- Squared magnitude, cgmath magnitude2. -/
def magnitude2 (v : Vec2) : ℝ := dot v v

/-- Quadratic solver saga_utils solve_quadratic. The Rust version returns
    anyhow Result with a message in the degenerate a = b = c = 0 case; the
    message content is irrelevant, so the error payload is Unit here.
    Every branch mirrors the source in order. -/
def solve_quadratic (a b c : ℝ) : Except Unit (List ℝ) :=
  if a = 0 ∧ b = 0 ∧ c = 0 then
    Except.error ()
  else if a = 0 ∧ b = 0 then
    -- implicit: c is nonzero here
    Except.ok []
  else if a = 0 then
    Except.ok [-c / b]
  else
    let d := b * b - 4 * a * c
    if d < 0 then
      Except.ok []
    else if d = 0 then
      Except.ok [-b / (2 * a)]
    else
      let ds := Real.sqrt d
      let c1 := (-b - ds) / (2 * a)
      let c2 := (-b + ds) / (2 * a)
      -- the source swaps c1 and c2 whenever c1 > c2, so the smaller root
      -- always comes first in the returned vector
      if c1 > c2 then Except.ok [c2, c1] else Except.ok [c1, c2]

/-- Circle of the collision module: a center and a radius. -/
structure Circle where
  position : Vec2
  radius : ℝ

/-- Tuple struct LineSegment(Vector2, Vector2); fst is field 0 and snd is
    field 1 of the Rust tuple struct. -/
structure LineSegment where
  fst : Vec2
  snd : Vec2

def LineSegment.direction (s : LineSegment) : Vec2 := s.snd - s.fst

def LineSegment.len2 (s : LineSegment) : ℝ := magnitude2 s.direction

def LineSegment.is_point_in_band (s : LineSegment) (point : Vec2) : Prop :=
  dot (point - s.fst) (point - s.snd) ≤ 0

def LineSegment.is_point_on_line (s : LineSegment) (point : Vec2) : Prop :=
  -- the source compares the two Vector2 values with ==, which is the
  -- componentwise conjunction below
  magnitude2 s.direction * (point - s.fst).x =
      dot (point - s.fst) s.direction * s.direction.x
    ∧ magnitude2 s.direction * (point - s.fst).y =
      dot (point - s.fst) s.direction * s.direction.y

/-- Function get_projection: zero when b is zero, otherwise the projection of
    a onto b computed without square roots. The is_zero test of cgmath is the
    componentwise comparison with zero. -/
def get_projection (a b : Vec2) : Vec2 :=
  if b.x = 0 ∧ b.y = 0 then 0 else (dot a b / magnitude2 b) • b

/-- Function get_perpendicular: the part of a perpendicular to b (a itself
    when b is zero). -/
def get_perpendicular (a b : Vec2) : Vec2 := a - get_projection a b

/-- HasNormal implementation for Circle. -/
def Circle.get_normal_scaled (c : Circle) (position : Vec2) : Vec2 :=
  position - c.position

/-- HasNormal implementation for LineSegment. -/
def LineSegment.get_normal_scaled (s : LineSegment) (position : Vec2) : Vec2 :=
  get_perpendicular (position - s.fst) s.direction

/-- Iterator find with the predicate t >= 0, as used on the quadratic
    solutions in penetration_time_circle_point: first element that is
    non-negative, in list order. -/
def find_nonneg : List ℝ → Option ℝ
  | [] => none
  | t :: ts => if 0 ≤ t then some t else find_nonneg ts

/-- Function penetration_time_circle_point. Mirrors the source: early out
    when the dot of minus the circle-to-point vector with direction is
    non-negative; otherwise solve the swept quadratic; report time 0 when the
    two sorted roots straddle zero; otherwise the first non-negative root. -/
def penetration_time_circle_point (circle : Circle) (point : Vec2)
    (direction : Vec2) : Option ℝ :=
  let circle_to_point := point - circle.position
  if 0 ≤ dot (-circle_to_point) direction then
    none
  else
    let qa := dot direction direction
    let qb := -2 * dot direction circle_to_point
    let qc := dot circle_to_point circle_to_point - circle.radius * circle.radius
    match solve_quadratic qa qb qc with
    | Except.error _ => none
    | Except.ok solutions =>
      -- already penetrated: length 2, first root negative, second non-negative
      let already_penetrated : Prop :=
        match solutions with
        | [t0, t1] => t0 < 0 ∧ 0 ≤ t1
        | _ => False
      if already_penetrated then some 0 else find_nonneg solutions

/-- Function penetration_time_point_circle, defined by time reversal. -/
def penetration_time_point_circle (point : Vec2) (circle : Circle)
    (direction : Vec2) : Option ℝ :=
  penetration_time_circle_point circle point (-direction)

/-- Function penetration_time_circle_circle: the moving circle donates its
    radius (Minkowski sum) and the test reduces to circle versus point. -/
def penetration_time_circle_circle (moving_circle : Circle) (direction : Vec2)
    (stationary_circle : Circle) : Option ℝ :=
  penetration_time_circle_point
    ⟨moving_circle.position, moving_circle.radius + stationary_circle.radius⟩
    stationary_circle.position
    direction

/-- First solution of the scan loop in penetration_time_circle_line that is
    inside the segment band and non-negative; candidate_t in the source is
    assigned exactly once, at the first index where both checks pass, so the
    loop computes this first match in list order. -/
def find_candidate (valid : ℝ → Prop) : List ℝ → Option ℝ
  | [] => none
  | t :: ts => if valid t ∧ 0 ≤ t then some t else find_candidate valid ts

/-- Function penetration_time_circle_line. The or-assign accumulators of the
    source loop (has_negative_solution, has_positive_solution) are the two
    existentials below, first_solution_valid is the band check of the head
    solution, and candidate_t is find_candidate. -/
def penetration_time_circle_line (circle : Circle) (line_segment : LineSegment)
    (direction : Vec2) : Option ℝ :=
  -- is_zero of cgmath: both components equal zero
  if direction.x = 0 ∧ direction.y = 0 then
    none
  else
    let normal_direction := line_segment.get_normal_scaled circle.position
    -- moving perpendicular to or away from the segment: skip
    if 0 ≤ dot normal_direction direction then
      none
    else
      let end_position := direction + circle.position
      let badc := cross_2d (end_position - circle.position)
        (line_segment.snd - line_segment.fst)
      let acdc := cross_2d (circle.position - line_segment.fst)
        (line_segment.snd - line_segment.fst)
      let qa := badc * badc
      let qb := 2 * badc * acdc
      let qc := acdc * acdc - circle.radius * circle.radius * line_segment.len2
      match solve_quadratic qa qb qc with
      | Except.error _ => none
      | Except.ok solutions =>
        let line_intersects_cylinder_segment : ℝ → Prop := fun t =>
          let p := t • direction + circle.position
          let projection_onto_line := dot (p - line_segment.fst) line_segment.direction
          0 ≤ projection_onto_line ∧ projection_onto_line ≤ line_segment.len2
        let has_negative_solution : Prop := ∃ t ∈ solutions, t < 0
        let has_positive_solution : Prop := ∃ t ∈ solutions, 0 ≤ t
        let first_solution_valid : Prop :=
          match solutions with
          | [] => False
          | t :: _ => line_intersects_cylinder_segment t
        let candidate_t := find_candidate line_intersects_cylinder_segment solutions
        if has_negative_solution ∧ has_positive_solution ∧ first_solution_valid then
          some 0
        else
          candidate_t

/-- Function penetration_time_point_line. -/
def penetration_time_point_line (point : Vec2) (line_segment : LineSegment)
    (direction : Vec2) : Option ℝ :=
  if line_segment.is_point_on_line point then
    if line_segment.is_point_in_band point then some 0 else none
  else
    let normal_scaled := line_segment.get_normal_scaled point
    let direction_projected_on_normal := get_projection direction normal_scaled
    let to_point_projected_on_normal :=
      get_projection (point - line_segment.fst) normal_scaled
    if 0 ≤ dot normal_scaled direction then
      none
    else
      let t := Real.sqrt (magnitude2 to_point_projected_on_normal /
        magnitude2 direction_projected_on_normal)
      let projected_point := point + t • direction
      if line_segment.is_point_in_band projected_point then some t else none

/-- Transient result enum Collision of the resolution loop. -/
inductive Collision where
  | withCircle (circle : Circle)
  | withLineSegment (line_segment : LineSegment)
  | withPoint (point : Vec2)
  | none

/-- Rust Iterator min_by with comparator sort_result, which compares the
    first (time) components. The fold keeps the accumulator unless the new
    element is strictly smaller, so the first minimum in iteration order
    wins, exactly as the std implementation via cmp min_by. -/
def min_by_step {α : Type} (acc : Option (ℝ × α)) (y : ℝ × α) :
    Option (ℝ × α) :=
  match acc with
  | Option.none => some y
  | some x => if x.1 > y.1 then some y else some x

def min_by {α : Type} (l : List (ℝ × α)) : Option (ℝ × α) :=
  l.foldl min_by_step Option.none

/-- One row of the movables query as read by get_first_collision: the 3D
    position and the CircleCollider radius (velocity and knockback are not
    read there). -/
structure MovableEntry where
  position : Vec3
  radius : ℝ

/-- One row of the static objects query as read by get_first_collision: only
    the MeshCollider line list is used (position and rotation are bound but
    unused in the source). -/
structure StaticEntry where
  lines : List LineSegment

/-- Candidate list for one mesh segment inside get_first_collision: the
    circle-line test and the two endpoint tests, in source order. NOTE the
    source reads segment field 0 for both endpoint tests, despite the comment
    there that both endpoints must be tested; the embedding reproduces this
    faithfully. -/
def segment_candidates (circle_bound : Circle) (direction : Vec2)
    (segment : LineSegment) : List (Option (ℝ × Collision)) :=
  [ (penetration_time_circle_line circle_bound segment direction).map
      (fun t => (t, Collision.withLineSegment segment)),
    (penetration_time_circle_point circle_bound segment.fst direction).map
      (fun t => (t, Collision.withPoint segment.fst)),
    (penetration_time_circle_point circle_bound segment.fst direction).map
      (fun t => (t, Collision.withPoint segment.fst)) ]

/-- Per static object, the minimum-time candidate over all its segments
    (the inner flatten plus min_by of the source). -/
def static_candidate (circle_bound : Circle) (direction : Vec2)
    (entry : StaticEntry) : Option (ℝ × Collision) :=
  min_by ((entry.lines.map (segment_candidates circle_bound direction)).flatten.reduceOption)

/-- Per dynamic object, the circle-circle candidate, skipping the moving
    entity itself by index. -/
def dynamic_candidate (movable_index : ℕ) (circle_bound : Circle)
    (direction : Vec2) (index_dynamic : ℕ) (entry : MovableEntry) :
    Option (ℝ × Collision) :=
  if movable_index = index_dynamic then
    Option.none
  else
    let other_circle_bound : Circle := ⟨entry.position.xz, entry.radius⟩
    (penetration_time_circle_circle circle_bound direction other_circle_bound).map
      (fun t => (t, Collision.withCircle other_circle_bound))

/-- Function get_first_collision. Candidate order mirrors the source chain:
    static results, then dynamic results, then the fallback pair of time 1
    with no collision; the unwrap is rendered as getD, safe because the
    fallback makes the list non-empty. -/
def get_first_collision (movable_index : ℕ) (circle_bound : Circle)
    (direction : Vec2) (movables : List MovableEntry)
    (static_objects : List StaticEntry) : ℝ × Collision :=
  let collisions_with_static_objects :=
    static_objects.map (static_candidate circle_bound direction)
  let collisions_with_dynamic_objects :=
    movables.enum.map
      (fun ie => dynamic_candidate movable_index circle_bound direction ie.1 ie.2)
  ((min_by
      ((collisions_with_static_objects ++ collisions_with_dynamic_objects).reduceOption
        ++ [(1, Collision.none)])).getD
    (1, Collision.none))

/-- Entity ids carry no structure the collision code reads; naturals play
    that role in the embedding. -/
def Entity := ℕ

/-- Function raycast. Dynamic candidates come from (entity, position, collider)
    rows, static candidates from (entity, mesh) rows; both are filtered by the
    ignores list before any penetration test runs, exactly as in the source.
    The source collects map-then-flatten vectors, rendered here as join and
    reduceOption; the final chain puts static candidates first. -/
def raycast_dynamic_candidates (position : Vec2) (direction : Vec2)
    (ignores : List ℕ) (dynamic_objects : List (ℕ × Vec3 × ℝ)) :
    List (ℝ × ℕ) :=
  ((dynamic_objects.filter (fun row => ¬ ignores.contains row.1)).map
    (fun row =>
      (penetration_time_point_circle position
          ⟨row.2.1.xz, row.2.2⟩ direction).map
        (fun t => (t, row.1)))).reduceOption

def raycast_static_candidates (position : Vec2) (direction : Vec2)
    (ignores : List ℕ) (static_objects : List (ℕ × List LineSegment)) :
    List (ℝ × ℕ) :=
  (((static_objects.filter (fun row => ¬ ignores.contains row.1)).map
    (fun row =>
      row.2.map
        (fun segment =>
          (penetration_time_point_line position segment direction).map
            (fun t => (t, row.1))))).flatten).reduceOption

def raycast (position : Vec2) (direction : Vec2) (ignores : List ℕ)
    (dynamic_objects : List (ℕ × Vec3 × ℝ))
    (static_objects : List (ℕ × List LineSegment)) : Option (ℝ × ℕ) :=
  min_by (raycast_static_candidates position direction ignores static_objects
    ++ raycast_dynamic_candidates position direction ignores dynamic_objects)

/-- Per-entity mutable state of the resolution loop in collision_system. -/
structure MovState where
  position : Vec3
  tracked_velocity : Vec2
  movement : Vec2

/-- Iteration cap MAX_TRANSLATIONS of collision_system. -/
def MAX_TRANSLATIONS : ℕ := 5

/-- Threshold MINIMUM_TRANSLATION_DISTANCE of collision_system. -/
def MINIMUM_TRANSLATION_DISTANCE : ℝ := 0.0001

/-- One iteration body of the loop: query the first collision with the fixed
    circle bound and the current movement, advance the position by the
    collision time, shrink the movement, and project velocity and movement
    onto the plane perpendicular to the scaled contact normal. -/
def substep_update (movable_index : ℕ) (circle_bound : Circle)
    (movables : List MovableEntry) (static_objects : List StaticEntry)
    (st : MovState) : MovState :=
  let collision_result :=
    get_first_collision movable_index circle_bound st.movement movables
      static_objects
  let collision_time := collision_result.1
  let collision_object := collision_result.2
  let position2 :=
    st.position + collision_time • (Vec3.mk st.movement.x 0 st.movement.y)
  let movement2 := (1 - collision_time) • st.movement
  let position_2d := position2.xz
  let scaled_normal :=
    match collision_object with
    | Collision.none => (0 : Vec2)
    | Collision.withCircle circ => circ.get_normal_scaled position_2d
    | Collision.withLineSegment line_segment =>
      line_segment.get_normal_scaled position_2d
    | Collision.withPoint point => position_2d - point
  ⟨position2, get_perpendicular st.tracked_velocity scaled_normal,
    get_perpendicular movement2 scaled_normal⟩

/-- The inner for loop of collision_system for one movable entity, with fuel
    equal to the remaining translations. Besides the final state it returns a
    trace: for every executed iteration, the circle bound passed to
    get_first_collision together with the entity position at the start of
    that iteration. The circle bound is the one computed by the caller before
    the loop; the source never rebuilds it inside the loop. The movables list
    is the query content while this entity is processed (the entity itself is
    skipped inside get_first_collision by index, so its stale row is unread). -/
def run_substeps (movable_index : ℕ) (circle_bound : Circle)
    (movables : List MovableEntry) (static_objects : List StaticEntry) :
    ℕ → MovState → MovState × List (Circle × Vec3)
  | 0, st => (st, [])
  | n + 1, st =>
    if magnitude2 st.movement <
        MINIMUM_TRANSLATION_DISTANCE * MINIMUM_TRANSLATION_DISTANCE then
      (st, [])
    else
      let rest := run_substeps movable_index circle_bound movables static_objects
        n (substep_update movable_index circle_bound movables static_objects st)
      (rest.1, (circle_bound, st.position) :: rest.2)

/-- Component Knockbackable. -/
structure Knockbackable where
  amount : Vec2
  resistance_as_scale : ℝ

/-- The per-entity body of collision_system: initial movement from velocity
    and delta time, knockback drained into the movement, the circle bound
    built once from the position before the loop, then the capped loop. -/
def process_movable (delta_seconds : ℝ) (index : ℕ) (position : Vec3)
    (velocity : Option Vec2) (knockback : Option Knockbackable) (radius : ℝ)
    (movables : List MovableEntry) (static_objects : List StaticEntry) :
    MovState × List (Circle × Vec3) :=
  let tracked_velocity := velocity.getD 0
  let movement0 := delta_seconds • tracked_velocity
  let movement :=
    match knockback with
    | some k => movement0 + k.resistance_as_scale • k.amount
    | Option.none => movement0
  let circle_bound : Circle := ⟨position.xz, radius⟩
  run_substeps index circle_bound movables static_objects MAX_TRANSLATIONS
    ⟨position, tracked_velocity, movement⟩

/-- Claim C6: for every point p, circle c and direction d,
    penetration_time_point_circle p c d equals
    penetration_time_circle_point c p (-d). -/
theorem claim_C6_point_circle_symmetry (p : Vec2) (c : Circle) (d : Vec2) :
    penetration_time_point_circle p c d = penetration_time_circle_point c p (-d) :=
  rfl

/-- Claim C7: for every pair of circles A, B and direction d,
    penetration_time_circle_circle A d B equals penetration_time_circle_point
    applied to the circle with center A.position and radius
    A.radius + B.radius, the point B.position and the direction d. -/
theorem claim_C7_circle_circle_reduction (A B : Circle) (d : Vec2) :
    penetration_time_circle_circle A d B =
      penetration_time_circle_point ⟨A.position, A.radius + B.radius⟩
        B.position d :=
  rfl

/-- Claim C9: with the zero direction, penetration_time_circle_line and
    penetration_time_circle_point both return none, for every circle, line
    segment and point. -/
theorem claim_C9_zero_direction (c : Circle) (s : LineSegment) (p : Vec2) :
    penetration_time_circle_line c s (0 : Vec2) = none ∧
      penetration_time_circle_point c p (0 : Vec2) = none := by
  constructor
  · simp [penetration_time_circle_line]
  · simp [penetration_time_circle_point, dot]

/-- Algebra helper: any s whose square is the discriminant yields an exact
    root of the quadratic through the standard formula. -/
theorem quadratic_formula_root (a b c s : ℝ) (ha : a ≠ 0)
    (hs : s ^ 2 = b * b - 4 * a * c) :
    a * ((-b + s) / (2 * a)) ^ 2 + b * ((-b + s) / (2 * a)) + c = 0 := by
  have h2a : (2 : ℝ) * a ≠ 0 := mul_ne_zero two_ne_zero ha
  field_simp
  linear_combination (2 * a ^ 2) * hs

/-- Algebra helper: the companion root with the negated square root. -/
theorem quadratic_formula_root_neg (a b c s : ℝ) (ha : a ≠ 0)
    (hs : s ^ 2 = b * b - 4 * a * c) :
    a * ((-b - s) / (2 * a)) ^ 2 + b * ((-b - s) / (2 * a)) + c = 0 := by
  have h := quadratic_formula_root a b c (-s) ha (by simpa using hs)
  have hrw : -b + -s = -b - s := by ring
  rw [hrw] at h
  exact h

/-- Claim C4: solve_quadratic errors exactly when a = b = c = 0; returns the
    empty list when a = 0, b = 0, c nonzero and when the discriminant is
    negative; returns the single root -c/b when a = 0, b nonzero; returns the
    single root -b/(2a) when the discriminant vanishes (and that value is a
    genuine root); and with a positive discriminant returns exactly two
    genuine roots in strictly ascending order. -/
theorem claim_C4_solve_quadratic_cases (a b c : ℝ) :
    ((∃ e, solve_quadratic a b c = Except.error e) ↔ a = 0 ∧ b = 0 ∧ c = 0)
    ∧ (a = 0 → b = 0 → c ≠ 0 → solve_quadratic a b c = Except.ok [])
    ∧ (a = 0 → b ≠ 0 → solve_quadratic a b c = Except.ok [-c / b])
    ∧ (a ≠ 0 → b * b - 4 * a * c < 0 → solve_quadratic a b c = Except.ok [])
    ∧ (a ≠ 0 → b * b - 4 * a * c = 0 →
        solve_quadratic a b c = Except.ok [-b / (2 * a)]
          ∧ a * (-b / (2 * a)) ^ 2 + b * (-b / (2 * a)) + c = 0)
    ∧ (a ≠ 0 → 0 < b * b - 4 * a * c →
        ∃ r1 r2, solve_quadratic a b c = Except.ok [r1, r2] ∧ r1 < r2
          ∧ a * r1 ^ 2 + b * r1 + c = 0 ∧ a * r2 ^ 2 + b * r2 + c = 0) := by
  refine ⟨?_, ?_, ?_, ?_, ?_, ?_⟩
  · constructor
    · rintro ⟨e, he⟩
      by_contra h
      have : ∀ e0 : Unit, solve_quadratic a b c ≠ Except.error e0 := by
        intro e0
        simp only [solve_quadratic, if_neg h]
        split_ifs <;> simp
      exact this e he
    · rintro ⟨ha, hb, hc⟩
      exact ⟨(), by simp [solve_quadratic, ha, hb, hc]⟩
  · intro ha hb hc
    simp [solve_quadratic, ha, hb, hc]
  · intro ha hb
    simp [solve_quadratic, ha, hb]
  · intro ha hd
    simp [solve_quadratic, ha, hd]
  · intro ha hd
    constructor
    · simp [solve_quadratic, ha, hd]
    · have h := quadratic_formula_root a b c 0 ha (by rw [hd]; norm_num)
      have hrw : -b + 0 = -b := by ring
      rw [hrw] at h
      exact h
  · intro ha hd
    have hs : Real.sqrt (b * b - 4 * a * c) ^ 2 = b * b - 4 * a * c :=
      Real.sq_sqrt hd.le
    have hspos : 0 < Real.sqrt (b * b - 4 * a * c) := Real.sqrt_pos.mpr hd
    have h2a : (2 : ℝ) * a ≠ 0 := mul_ne_zero two_ne_zero ha
    have root1 := quadratic_formula_root_neg a b c (Real.sqrt (b * b - 4 * a * c)) ha hs
    have root2 := quadratic_formula_root a b c (Real.sqrt (b * b - 4 * a * c)) ha hs
    have hne : (-b - Real.sqrt (b * b - 4 * a * c)) / (2 * a) ≠
        (-b + Real.sqrt (b * b - 4 * a * c)) / (2 * a) := by
      intro heq
      have h1 := congrArg (fun x : ℝ => x * (2 * a)) heq
      simp only [div_mul_cancel₀ _ h2a] at h1
      linarith
    by_cases hcomp : (-b - Real.sqrt (b * b - 4 * a * c)) / (2 * a) >
        (-b + Real.sqrt (b * b - 4 * a * c)) / (2 * a)
    · refine ⟨(-b + Real.sqrt (b * b - 4 * a * c)) / (2 * a),
        (-b - Real.sqrt (b * b - 4 * a * c)) / (2 * a), ?_, hcomp, root2, root1⟩
      simp [solve_quadratic, ha, not_lt.mpr hd.le, hd.ne', hcomp]
    · refine ⟨(-b - Real.sqrt (b * b - 4 * a * c)) / (2 * a),
        (-b + Real.sqrt (b * b - 4 * a * c)) / (2 * a), ?_,
        lt_of_le_of_ne (not_lt.mp hcomp) hne, root1, root2⟩
      simp [solve_quadratic, ha, not_lt.mpr hd.le, hd.ne', hcomp]

/-- Witness for claim C4: each case of the solver exercised at a concrete
    input through the claim theorem. -/
theorem claim_C4_witness :
    (∃ e, solve_quadratic 0 0 0 = Except.error e)
    ∧ solve_quadratic 0 0 5 = Except.ok []
    ∧ solve_quadratic 0 2 6 = Except.ok [-6 / 2]
    ∧ solve_quadratic 1 0 1 = Except.ok []
    ∧ solve_quadratic 1 (-2) 1 = Except.ok [-(-2) / (2 * 1)]
    ∧ (∃ r1 r2, solve_quadratic 1 0 (-4) = Except.ok [r1, r2] ∧ r1 < r2) := by
  refine ⟨(claim_C4_solve_quadratic_cases 0 0 0).1.mpr ⟨rfl, rfl, rfl⟩,
    (claim_C4_solve_quadratic_cases 0 0 5).2.1 rfl rfl (by norm_num),
    (claim_C4_solve_quadratic_cases 0 2 6).2.2.1 rfl (by norm_num),
    (claim_C4_solve_quadratic_cases 1 0 1).2.2.2.1 (by norm_num) (by norm_num),
    ((claim_C4_solve_quadratic_cases 1 (-2) 1).2.2.2.2.1 (by norm_num)
      (by norm_num)).1, ?_⟩
  obtain ⟨r1, r2, h1, h2, -, -⟩ :=
    (claim_C4_solve_quadratic_cases 1 0 (-4)).2.2.2.2.2 (by norm_num) (by norm_num)
  exact ⟨r1, r2, h1, h2⟩

/-- Helper: the early-out branch of penetration_time_circle_point fires
    exactly when the dot of the direction with the circle-to-point vector is
    non-positive. -/
theorem ctp_none_of_dot_nonpos (c : Circle) (p d : Vec2)
    (h : dot d (p - c.position) ≤ 0) :
    penetration_time_circle_point c p d = none := by
  have hcond : 0 ≤ dot (-(p - c.position)) d := by
    have hrw : dot (-(p - c.position)) d = -(dot d (p - c.position)) := by
      simp [dot]; ring
    rw [hrw]
    linarith
  simp only [penetration_time_circle_point]
  rw [if_pos hcond]

/-- Claim C8 (amended): penetration_time_circle_point returns none whenever
    the dot product of direction with the circle-to-point vector is
    non-positive; the source compares dot(-circle_to_point, direction)
    against zero, which negates the sign the spec sentence states. -/
theorem claim_C8_early_out (c : Circle) (p d : Vec2)
    (h : dot d (p - c.position) ≤ 0) :
    penetration_time_circle_point c p d = none :=
  ctp_none_of_dot_nonpos c p d h

/-- Witness for claim C8: a circle moving away from the point yields none. -/
theorem claim_C8_early_out_witness :
    penetration_time_circle_point ⟨⟨0, 0⟩, 1⟩ ⟨1, 0⟩ ⟨-1, 0⟩ = none :=
  claim_C8_early_out ⟨⟨0, 0⟩, 1⟩ ⟨1, 0⟩ ⟨-1, 0⟩ (by norm_num [dot])

/-- Helper: rewrite a square root at a perfect square. -/
theorem sqrt_eval {x r : ℝ} (hr : 0 ≤ r) (h : x = r ^ 2) : Real.sqrt x = r := by
  rw [h, Real.sqrt_sq hr]

/-- Evaluation: the solver on the quadratic arising from a unit circle at the
    origin swept by one unit along the x axis toward the point (10, 0). -/
theorem sq_eval_far : solve_quadratic 1 (-20) 99 = Except.ok [9, 11] := by
  have h4 : Real.sqrt 4 = 2 := sqrt_eval (by norm_num) (by norm_num)
  norm_num [solve_quadratic, h4]

/-- Evaluation: sweeping the unit circle at the origin by displacement (1, 0)
    against the point (10, 0) reports impact time 9, far beyond the intended
    displacement. -/
theorem ctp_eval_far :
    penetration_time_circle_point ⟨⟨0, 0⟩, 1⟩ ⟨10, 0⟩ ⟨1, 0⟩ = some 9 := by
  have hcond : ¬ 0 ≤ dot (-(Vec2.mk 10 0 - (Vec2.mk 0 0))) ⟨1, 0⟩ := by
    norm_num [dot]
  simp only [penetration_time_circle_point, if_neg hcond]
  norm_num [dot]
  rw [sq_eval_far]
  norm_num [find_nonneg]

/-- Counterexample to claim C8 as stated: moving straight at the point gives
    a non-negative dot of direction with the circle-to-point vector, yet the
    function does not return none. -/
theorem claim_C8_counterexample :
    0 ≤ dot ⟨1, 0⟩ (Vec2.mk 10 0 - Vec2.mk 0 0)
      ∧ penetration_time_circle_point ⟨⟨0, 0⟩, 1⟩ ⟨10, 0⟩ ⟨1, 0⟩ ≠ none := by
  constructor
  · norm_num [dot]
  · rw [ctp_eval_far]
    simp

/-- Helper: the find on the solution list only ever produces a non-negative
    value. -/
theorem find_nonneg_spec : ∀ (l : List ℝ) (t : ℝ), find_nonneg l = some t → 0 ≤ t := by
  intro l
  induction l with
  | nil => intro t h; simp [find_nonneg] at h
  | cons a l ih =>
    intro t h
    simp only [find_nonneg] at h
    split_ifs at h with ha
    · exact (Option.some.inj h) ▸ ha
    · exact ih t h

/-- Helper: the candidate scan only picks values passing both checks. -/
theorem find_candidate_spec (valid : ℝ → Prop) :
    ∀ (l : List ℝ) (t : ℝ), find_candidate valid l = some t → valid t ∧ 0 ≤ t := by
  intro l
  induction l with
  | nil => intro t h; simp [find_candidate] at h
  | cons a l ih =>
    intro t h
    simp only [find_candidate] at h
    split_ifs at h with ha
    · exact (Option.some.inj h) ▸ ha
    · exact ih t h

/-- Helper: every time reported by penetration_time_circle_point is
    non-negative. -/
theorem ctp_nonneg (c : Circle) (p d : Vec2) (t : ℝ)
    (h : penetration_time_circle_point c p d = some t) : 0 ≤ t := by
  simp only [penetration_time_circle_point] at h
  split_ifs at h
  split at h
  · exact absurd h (by simp)
  · split_ifs at h
    all_goals first
      | exact le_of_eq (Option.some.inj h)
      | exact le_of_eq h
      | linarith [h]
      | exact find_nonneg_spec _ t h

/-- Helper: every time reported by penetration_time_circle_line is
    non-negative. -/
theorem ctl_nonneg (c : Circle) (s : LineSegment) (d : Vec2) (t : ℝ)
    (h : penetration_time_circle_line c s d = some t) : 0 ≤ t := by
  simp only [penetration_time_circle_line] at h
  split_ifs at h
  split at h
  · exact absurd h (by simp)
  · split_ifs at h
    all_goals first
      | exact le_of_eq (Option.some.inj h)
      | exact le_of_eq h
      | linarith [h]
      | exact (find_candidate_spec _ _ t h).2

/-- Helper: every time reported by penetration_time_point_line is
    non-negative. -/
theorem ptl_nonneg (p : Vec2) (s : LineSegment) (d : Vec2) (t : ℝ)
    (h : penetration_time_point_line p s d = some t) : 0 ≤ t := by
  simp only [penetration_time_point_line] at h
  split_ifs at h
  all_goals first
    | exact le_of_eq (Option.some.inj h)
    | exact le_of_eq h
    | linarith [h]
    | exact (Option.some.inj h) ▸ Real.sqrt_nonneg _

/-- Claim C1 (amended): every time a penetration primitive reports is
    non-negative, but the primitives do not clamp the time at 1: a time
    greater than 1 is returned when the earliest crossing lies beyond the
    attempted displacement, and the counterexample shows this happens. The
    upper bound of 1 holds only after the caller appends its time-1 fallback
    (claim C10). -/
theorem claim_C1_time_nonneg (t : ℝ) :
    (∀ c p d, penetration_time_circle_point c p d = some t → 0 ≤ t)
    ∧ (∀ A d B, penetration_time_circle_circle A d B = some t → 0 ≤ t)
    ∧ (∀ c s d, penetration_time_circle_line c s d = some t → 0 ≤ t)
    ∧ (∀ p s d, penetration_time_point_line p s d = some t → 0 ≤ t)
    ∧ (∀ p c d, penetration_time_point_circle p c d = some t → 0 ≤ t) :=
  ⟨fun c p d h => ctp_nonneg c p d t h,
   fun _ _ _ h => ctp_nonneg _ _ _ t h,
   fun c s d h => ctl_nonneg c s d t h,
   fun p s d h => ptl_nonneg p s d t h,
   fun _ _ _ h => ctp_nonneg _ _ _ t h⟩

/-- Evaluation: the solver for the Minkowski-inflated circle-circle sweep. -/
theorem sq_eval_inflated : solve_quadratic 1 (-20) 96 = Except.ok [8, 12] := by
  have h16 : Real.sqrt 16 = 4 := sqrt_eval (by norm_num) (by norm_num)
  norm_num [solve_quadratic, h16]

/-- Evaluation: circle-circle sweep of a unit circle at the origin against a
    unit circle at (10, 0) with displacement (1, 0) reports time 8. -/
theorem ccc_eval :
    penetration_time_circle_circle ⟨⟨0, 0⟩, 1⟩ ⟨1, 0⟩ ⟨⟨10, 0⟩, 1⟩ = some 8 := by
  have hcond : ¬ 0 ≤ dot (-(Vec2.mk 10 0 - Vec2.mk 0 0)) ⟨1, 0⟩ := by
    norm_num [dot]
  simp only [penetration_time_circle_circle, penetration_time_circle_point,
    if_neg hcond]
  norm_num [dot]
  rw [sq_eval_inflated]
  norm_num [find_nonneg]

/-- Evaluation: the solver for the point-circle raycast example. -/
theorem sq_eval_ray : solve_quadratic 1 (-10) 24 = Except.ok [4, 6] := by
  have h4 : Real.sqrt 4 = 2 := sqrt_eval (by norm_num) (by norm_num)
  norm_num [solve_quadratic, h4]

/-- Evaluation: a ray from the origin along (1, 0) meets the unit circle at
    (5, 0) at time 4. -/
theorem ptc_eval :
    penetration_time_point_circle ⟨0, 0⟩ ⟨⟨5, 0⟩, 1⟩ ⟨1, 0⟩ = some 4 := by
  have hcond : ¬ 0 ≤ dot (-(Vec2.mk 0 0 - Vec2.mk 5 0)) (-(Vec2.mk 1 0)) := by
    norm_num [dot]
  simp only [penetration_time_point_circle, penetration_time_circle_point,
    if_neg hcond]
  norm_num [dot]
  rw [sq_eval_ray]
  norm_num [find_nonneg]

/-- Evaluation: the solver for the main circle-line scenario (a unit circle
    at (0, 2) moving by (2, -2) into the wall segment on the x axis). -/
theorem sq_eval_wall : solve_quadratic 1600 (-3200) 1200 =
    Except.ok [1 / 2, 3 / 2] := by
  have hs : Real.sqrt 2560000 = 1600 := sqrt_eval (by norm_num) (by norm_num)
  norm_num [solve_quadratic, hs]

/-- Evaluation: the unit circle at (0, 2) swept by (2, -2) against the wall
    segment from (-10, 0) to (10, 0) collides at time one half. -/
theorem ctl_eval_wall :
    penetration_time_circle_line ⟨⟨0, 2⟩, 1⟩ ⟨⟨-10, 0⟩, ⟨10, 0⟩⟩ ⟨2, -2⟩ =
      some (1 / 2) := by
  have hs : Real.sqrt 2560000 = 1600 := sqrt_eval (by norm_num) (by norm_num)
  norm_num [penetration_time_circle_line, LineSegment.get_normal_scaled,
    LineSegment.direction, LineSegment.len2, get_perpendicular, get_projection,
    cross_2d, dot, magnitude2, solve_quadratic, hs, find_candidate,
    Vec2.mk.injEq]

/-- Evaluation: a point raycast from (0, 2) by (0, -4) against the wall
    segment from (-10, 0) to (10, 0) hits at time one half. -/
theorem ptl_eval :
    penetration_time_point_line ⟨0, 2⟩ ⟨⟨-10, 0⟩, ⟨10, 0⟩⟩ ⟨0, -4⟩ =
      some (1 / 2) := by
  have hs : Real.sqrt ((1 : ℝ) / 4) = 1 / 2 := sqrt_eval (by norm_num) (by norm_num)
  norm_num [penetration_time_point_line, LineSegment.is_point_on_line,
    LineSegment.is_point_in_band, LineSegment.get_normal_scaled,
    LineSegment.direction, get_projection, get_perpendicular, dot, magnitude2,
    hs, Vec2.mk.injEq]

/-- Witness for claim C1: each of the five primitives applied at a concrete
    input whose reported time the claim theorem bounds below by zero. -/
theorem claim_C1_witness :
    (0 : ℝ) ≤ 9 ∧ (0 : ℝ) ≤ 8 ∧ (0 : ℝ) ≤ 1 / 2 ∧ (0 : ℝ) ≤ 1 / 2
      ∧ (0 : ℝ) ≤ 4 :=
  ⟨(claim_C1_time_nonneg 9).1 _ _ _ ctp_eval_far,
   (claim_C1_time_nonneg 8).2.1 _ _ _ ccc_eval,
   (claim_C1_time_nonneg (1 / 2)).2.2.1 _ _ _ ctl_eval_wall,
   (claim_C1_time_nonneg (1 / 2)).2.2.2.1 _ _ _ ptl_eval,
   (claim_C1_time_nonneg 4).2.2.2.2 _ _ _ ptc_eval⟩

/-- Counterexample to claim C1 as stated: the circle-point primitive returns
    time 9 for a collision far beyond the attempted displacement instead of
    returning none or a time at most 1. -/
theorem claim_C1_counterexample :
    penetration_time_circle_point ⟨⟨0, 0⟩, 1⟩ ⟨10, 0⟩ ⟨1, 0⟩ = some 9
      ∧ ¬ ((9 : ℝ) ≤ 1) :=
  ⟨ctp_eval_far, by norm_num⟩

/-- Helper: folding the min step from a some accumulator yields an element of
    the accumulator-plus-list that is a lower bound for all of them. -/
theorem min_by_fold_spec {α : Type} :
    ∀ (l : List (ℝ × α)) (acc : ℝ × α),
      ∃ z, List.foldl min_by_step (some acc) l = some z
        ∧ (z = acc ∨ z ∈ l) ∧ z.1 ≤ acc.1 ∧ ∀ y ∈ l, z.1 ≤ y.1 := by
  intro l
  induction l with
  | nil =>
    intro acc
    exact ⟨acc, rfl, Or.inl rfl, le_refl _, by simp⟩
  | cons a l ih =>
    intro acc
    by_cases hc : acc.1 > a.1
    · obtain ⟨z, hz, hmem, hle, hall⟩ := ih a
      refine ⟨z, ?_, ?_, ?_, ?_⟩
      · simpa [List.foldl_cons, min_by_step, hc] using hz
      · rcases hmem with h | h
        · exact Or.inr (by simp [h])
        · exact Or.inr (by simp [h])
      · exact le_trans hle (le_of_lt hc)
      · intro y hy
        rcases List.mem_cons.mp hy with h | h
        · exact h ▸ hle
        · exact hall y h
    · obtain ⟨z, hz, hmem, hle, hall⟩ := ih acc
      refine ⟨z, ?_, ?_, hle, ?_⟩
      · simpa [List.foldl_cons, min_by_step, hc] using hz
      · rcases hmem with h | h
        · exact Or.inl h
        · exact Or.inr (by simp [h])
      · intro y hy
        rcases List.mem_cons.mp hy with h | h
        · exact h ▸ le_trans hle (not_lt.mp hc)
        · exact hall y h

/-- Helper: a some result of min_by belongs to the list and is a lower bound
    on all first components. -/
theorem min_by_spec {α : Type} (l : List (ℝ × α)) (x : ℝ × α)
    (h : min_by l = some x) : x ∈ l ∧ ∀ y ∈ l, x.1 ≤ y.1 := by
  cases l with
  | nil => exact absurd h (by simp [min_by])
  | cons a l =>
    obtain ⟨z, hz, hmem, hle, hall⟩ := min_by_fold_spec l a
    have hx : z = x := by
      have : min_by (a :: l) = some z := by
        simpa [min_by, List.foldl_cons, min_by_step] using hz
      exact Option.some.inj (this.symm.trans h)
    subst hx
    refine ⟨?_, ?_⟩
    · rcases hmem with h1 | h1
      · simp [h1]
      · simp [h1]
    · intro y hy
      rcases List.mem_cons.mp hy with h1 | h1
      · exact h1 ▸ hle
      · exact hall y h1

/-- Helper: min_by returns none exactly on the empty list. -/
theorem min_by_none_iff {α : Type} (l : List (ℝ × α)) :
    min_by l = Option.none ↔ l = [] := by
  cases l with
  | nil => simp [min_by]
  | cons a l =>
    obtain ⟨z, hz, -, -, -⟩ := min_by_fold_spec l a
    constructor
    · intro h
      have : min_by (a :: l) = some z := by
        simpa [min_by, List.foldl_cons, min_by_step] using hz
      exact absurd (this.symm.trans h) (by simp)
    · intro h
      exact absurd h (by simp)

/-- Helper: bounds for the unwrap-with-default of a min_by result. -/
theorem min_by_getD_bounds {α : Type} (l : List (ℝ × α)) (d : ℝ × α)
    (hnn : ∀ p ∈ l, 0 ≤ p.1) (hd0 : 0 ≤ d.1) (hd1 : d.1 ≤ 1)
    (hex : ∃ q ∈ l, q.1 ≤ 1) :
    0 ≤ ((min_by l).getD d).1 ∧ ((min_by l).getD d).1 ≤ 1 := by
  cases hmb : min_by l with
  | none => simpa using ⟨hd0, hd1⟩
  | some x =>
    obtain ⟨hmem, hle⟩ := min_by_spec l x hmb
    obtain ⟨q, hq, hq1⟩ := hex
    simpa using ⟨hnn x hmem, le_trans (hle q hq) hq1⟩

/-- Helper: every candidate a mesh segment contributes has a non-negative
    time. -/
theorem segment_candidates_nonneg (cb : Circle) (dir : Vec2)
    (seg : LineSegment) (p : ℝ × Collision)
    (h : some p ∈ segment_candidates cb dir seg) : 0 ≤ p.1 := by
  simp only [segment_candidates, List.mem_cons, List.not_mem_nil, or_false] at h
  rcases h with h | h | h
  all_goals {
    rcases Option.map_eq_some'.mp h.symm with ⟨t, ht, hp⟩
    first
      | exact hp ▸ ctl_nonneg _ _ _ t ht
      | exact hp ▸ ctp_nonneg _ _ _ t ht
  }

/-- Helper: every per-static-object minimum candidate has a non-negative
    time. -/
theorem static_candidate_nonneg (cb : Circle) (dir : Vec2) (s : StaticEntry)
    (p : ℝ × Collision) (h : static_candidate cb dir s = some p) : 0 ≤ p.1 := by
  obtain ⟨hmem, -⟩ := min_by_spec _ p h
  rw [List.reduceOption_mem_iff, List.mem_flatten] at hmem
  obtain ⟨l, hl, hpl⟩ := hmem
  obtain ⟨seg, -, rfl⟩ := List.mem_map.mp hl
  exact segment_candidates_nonneg cb dir seg p hpl

/-- Helper: every dynamic candidate has a non-negative time. -/
theorem dynamic_candidate_nonneg (mi : ℕ) (cb : Circle) (dir : Vec2) (i : ℕ)
    (e : MovableEntry) (p : ℝ × Collision)
    (h : dynamic_candidate mi cb dir i e = some p) : 0 ≤ p.1 := by
  simp only [dynamic_candidate] at h
  split_ifs at h
  rcases Option.map_eq_some'.mp h with ⟨t, ht, hp⟩
  exact hp ▸ ctp_nonneg _ _ _ t ht

/-- Claim C10: for every movable index, circle bound, direction and world
    state, the collision time returned by get_first_collision lies in the
    closed interval from 0 to 1: all penetration candidates are non-negative
    and the appended time-1 fallback caps the minimum, so the caller never
    advances a position past the intended sub-step movement. -/
theorem claim_C10_first_collision_time_bounds (movable_index : ℕ)
    (circle_bound : Circle) (direction : Vec2) (movables : List MovableEntry)
    (static_objects : List StaticEntry) :
    0 ≤ (get_first_collision movable_index circle_bound direction movables
          static_objects).1
      ∧ (get_first_collision movable_index circle_bound direction movables
          static_objects).1 ≤ 1 := by
  simp only [get_first_collision]
  apply min_by_getD_bounds
  · intro p hp
    rcases List.mem_append.mp hp with h | h
    · rw [List.reduceOption_mem_iff] at h
      rcases List.mem_append.mp h with h1 | h1
      · obtain ⟨s, -, hs⟩ := List.mem_map.mp h1
        exact static_candidate_nonneg _ _ s p hs
      · obtain ⟨ie, -, hie⟩ := List.mem_map.mp h1
        exact dynamic_candidate_nonneg _ _ _ ie.1 ie.2 p hie
    · simp at h
      simp [h]
  · norm_num
  · norm_num
  · exact ⟨(1, Collision.none), by simp, le_refl 1⟩

/-- Helper: every dynamic raycast candidate names an entity outside the
    ignores list, because filtering happens before any penetration test. -/
theorem raycast_dynamic_not_ignored (position direction : Vec2)
    (ignores : List ℕ) (dynamic_objects : List (ℕ × Vec3 × ℝ))
    (p : ℝ × ℕ)
    (h : p ∈ raycast_dynamic_candidates position direction ignores dynamic_objects) :
    p.2 ∉ ignores := by
  simp only [raycast_dynamic_candidates] at h
  rw [List.reduceOption_mem_iff] at h
  obtain ⟨row, hrow, hmap⟩ := List.mem_map.mp h
  rcases Option.map_eq_some'.mp hmap with ⟨t, -, hpeq⟩
  have hfil := (List.mem_filter.mp hrow).2
  simp only [decide_eq_true_eq, List.contains, List.elem_eq_mem] at hfil
  subst hpeq
  simpa using hfil

/-- Helper: every static raycast candidate names an entity outside the
    ignores list. -/
theorem raycast_static_not_ignored (position direction : Vec2)
    (ignores : List ℕ) (static_objects : List (ℕ × List LineSegment))
    (p : ℝ × ℕ)
    (h : p ∈ raycast_static_candidates position direction ignores static_objects) :
    p.2 ∉ ignores := by
  simp only [raycast_static_candidates] at h
  rw [List.reduceOption_mem_iff, List.mem_flatten] at h
  obtain ⟨l, hl, hpl⟩ := h
  obtain ⟨row, hrow, rfl⟩ := List.mem_map.mp hl
  obtain ⟨seg, -, hmap⟩ := List.mem_map.mp hpl
  rcases Option.map_eq_some'.mp hmap with ⟨t, -, hpeq⟩
  have hfil := (List.mem_filter.mp hrow).2
  simp only [decide_eq_true_eq, List.contains, List.elem_eq_mem] at hfil
  subst hpeq
  simpa using hfil

/-- Claim C5: raycast never returns an entity on the ignores list (those rows
    are filtered out before any test, so even a time-0 hit is excluded), it
    returns a candidate pair of minimal time among all non-ignored dynamic
    and static candidates, and it returns none exactly when there is no
    candidate. -/
theorem claim_C5_raycast_min_not_ignored (position direction : Vec2)
    (ignores : List ℕ) (dynamic_objects : List (ℕ × Vec3 × ℝ))
    (static_objects : List (ℕ × List LineSegment)) :
    (∀ t e, raycast position direction ignores dynamic_objects static_objects
        = some (t, e) →
      e ∉ ignores
      ∧ (t, e) ∈ raycast_static_candidates position direction ignores static_objects
          ++ raycast_dynamic_candidates position direction ignores dynamic_objects
      ∧ ∀ p ∈ raycast_static_candidates position direction ignores static_objects
          ++ raycast_dynamic_candidates position direction ignores dynamic_objects,
          t ≤ p.1)
    ∧ (raycast position direction ignores dynamic_objects static_objects
          = Option.none
        ↔ raycast_static_candidates position direction ignores static_objects
            ++ raycast_dynamic_candidates position direction ignores dynamic_objects
          = []) := by
  constructor
  · intro t e h
    obtain ⟨hmem, hle⟩ := min_by_spec _ (t, e) h
    refine ⟨?_, hmem, fun p hp => hle p hp⟩
    rcases List.mem_append.mp hmem with h1 | h1
    · exact raycast_static_not_ignored position direction ignores
        static_objects (t, e) h1
    · exact raycast_dynamic_not_ignored position direction ignores
        dynamic_objects (t, e) h1
  · exact min_by_none_iff _

/-- Evaluation: a raycast from the origin along the x axis, ignoring entity 7
    whose collider contains the origin, hits entity 8 at time 4. -/
theorem raycast_eval :
    raycast ⟨0, 0⟩ ⟨1, 0⟩ [7] [(7, ⟨0, 0, 0⟩, 1), (8, ⟨5, 0, 0⟩, 1)] []
      = some (4, 8) := by
  simp only [raycast, raycast_dynamic_candidates, raycast_static_candidates,
    List.filter, List.map, Vec3.xz_def]
  norm_num [ptc_eval, min_by, min_by_step, List.reduceOption,
    List.filterMap_cons, List.filterMap_nil, id_eq, List.foldl]

/-- Witness for claim C5: the concrete raycast above, pushed through the
    claim theorem: entity 8 is not ignored and its hit is a minimal
    candidate. -/
theorem claim_C5_witness :
    (8 ∉ [7])
    ∧ ((4 : ℝ), 8) ∈ raycast_static_candidates ⟨0, 0⟩ ⟨1, 0⟩ [7] []
        ++ raycast_dynamic_candidates ⟨0, 0⟩ ⟨1, 0⟩ [7]
          [(7, ⟨0, 0, 0⟩, 1), (8, ⟨5, 0, 0⟩, 1)] := by
  have h := (claim_C5_raycast_min_not_ignored ⟨0, 0⟩ ⟨1, 0⟩ [7]
    [(7, ⟨0, 0, 0⟩, 1), (8, ⟨5, 0, 0⟩, 1)] []).1 4 8 raycast_eval
  exact ⟨h.1, h.2.1⟩

/-- Evaluation: the solver for the cylinder quadratic of the C2 scenario
    (circle of radius one half at (13/10, 2) moving by (0, -4) against the
    segment from the origin to (1, 0)). -/
theorem sq_eval_c2line : solve_quadratic 16 (-16) (15 / 4) =
    Except.ok [3 / 8, 5 / 8] := by
  have h16 : Real.sqrt 16 = 4 := sqrt_eval (by norm_num) (by norm_num)
  norm_num [solve_quadratic, h16]

/-- Evaluation: in the C2 scenario the circle passes beyond the right end of
    the segment, so the circle-line test rejects both roots by the band
    check and returns none. -/
theorem ctl_eval_c2 :
    penetration_time_circle_line ⟨⟨13 / 10, 2⟩, 1 / 2⟩ ⟨⟨0, 0⟩, ⟨1, 0⟩⟩
      ⟨0, -4⟩ = Option.none := by
  norm_num [penetration_time_circle_line, LineSegment.get_normal_scaled,
    LineSegment.direction, LineSegment.len2, get_perpendicular, get_projection,
    cross_2d, dot, magnitude2, sq_eval_c2line, find_candidate, Vec2.mk.injEq]

/-- Evaluation: in the C2 scenario the sweep misses the first endpoint (the
    origin): the discriminant is negative, hence none. -/
theorem ctp_eval_c2a :
    penetration_time_circle_point ⟨⟨13 / 10, 2⟩, 1 / 2⟩ ⟨0, 0⟩ ⟨0, -4⟩
      = Option.none := by
  have hcond : ¬ 0 ≤ dot (-(Vec2.mk 0 0 - Vec2.mk (13 / 10) 2)) ⟨0, -4⟩ := by
    norm_num [dot]
  simp only [penetration_time_circle_point, if_neg hcond]
  norm_num [dot, solve_quadratic, find_nonneg]

/-- Evaluation: the solver for the second-endpoint quadratic of the C2
    scenario. -/
theorem sq_eval_c2point : solve_quadratic 16 (-16) (96 / 25) =
    Except.ok [2 / 5, 3 / 5] := by
  have hs : Real.sqrt (256 / 25) = 16 / 5 := sqrt_eval (by norm_num) (by norm_num)
  norm_num [solve_quadratic, hs]

/-- Evaluation: in the C2 scenario the sweep genuinely hits the second
    endpoint (1, 0) at time 2/5. -/
theorem ctp_eval_c2b :
    penetration_time_circle_point ⟨⟨13 / 10, 2⟩, 1 / 2⟩ ⟨1, 0⟩ ⟨0, -4⟩
      = some (2 / 5) := by
  have hcond : ¬ 0 ≤ dot (-(Vec2.mk 1 0 - Vec2.mk (13 / 10) 2)) ⟨0, -4⟩ := by
    norm_num [dot]
  simp only [penetration_time_circle_point, if_neg hcond]
  norm_num [dot]
  norm_num [sq_eval_c2point, find_nonneg]

/-- Evaluation: in the C2 scenario get_first_collision reports no collision
    at all (time 1, no object), because its three per-segment tests are the
    circle-line test and the first endpoint twice; the second endpoint, the
    one actually hit, is never tested. -/
theorem gfc_eval_c2 :
    get_first_collision 0 ⟨⟨13 / 10, 2⟩, 1 / 2⟩ ⟨0, -4⟩ []
      [⟨[⟨⟨0, 0⟩, ⟨1, 0⟩⟩]⟩] = (1, Collision.none) := by
  norm_num [get_first_collision, static_candidate, segment_candidates,
    dynamic_candidate, ctl_eval_c2, ctp_eval_c2a, min_by, min_by_step,
    List.reduceOption, List.filterMap, List.enum, List.foldl]

/-- Claim C2: the source comment above the per-segment tests states that the
    line and both endpoints must be tested, but the code reads segment field
    0 for both endpoint tests; in the scenario below the moving circle hits
    the second endpoint (1, 0) at time 2/5, yet get_first_collision reports
    no collision before the full movement. -/
theorem claim_C2_second_endpoint_never_tested :
    get_first_collision 0 ⟨⟨13 / 10, 2⟩, 1 / 2⟩ ⟨0, -4⟩ []
        [⟨[⟨⟨0, 0⟩, ⟨1, 0⟩⟩]⟩] = (1, Collision.none)
      ∧ penetration_time_circle_point ⟨⟨13 / 10, 2⟩, 1 / 2⟩ ⟨1, 0⟩ ⟨0, -4⟩
        = some (2 / 5) :=
  ⟨gfc_eval_c2, ctp_eval_c2b⟩

/-- Helper: successor-step equation of the sub-step loop. -/
theorem run_substeps_succ (mi : ℕ) (cb : Circle) (movs : List MovableEntry)
    (stats : List StaticEntry) (n : ℕ) (st : MovState) :
    run_substeps mi cb movs stats (n + 1) st =
      if magnitude2 st.movement <
          MINIMUM_TRANSLATION_DISTANCE * MINIMUM_TRANSLATION_DISTANCE then
        (st, [])
      else
        ((run_substeps mi cb movs stats n (substep_update mi cb movs stats st)).1,
          (cb, st.position)
            :: (run_substeps mi cb movs stats n (substep_update mi cb movs stats st)).2) :=
  rfl

/-- Helper: every circle bound recorded in the sub-step trace is the one the
    loop was entered with. -/
theorem run_substeps_bound_const (mi : ℕ) (cb : Circle)
    (movs : List MovableEntry) (stats : List StaticEntry) :
    ∀ (n : ℕ) (st : MovState),
      ((run_substeps mi cb movs stats n st).2).map Prod.fst
        = List.replicate ((run_substeps mi cb movs stats n st).2).length cb := by
  intro n
  induction n with
  | zero => intro st; simp [run_substeps]
  | succ n ih =>
    intro st
    rw [run_substeps_succ]
    by_cases hg : magnitude2 st.movement <
        MINIMUM_TRANSLATION_DISTANCE * MINIMUM_TRANSLATION_DISTANCE
    · simp [if_pos hg]
    · simp only [if_neg hg]
      simp [ih, List.replicate_succ]

/-- Claim C3 (amended): the circle bound is built once per entity per tick,
    before the sub-step loop, from the position the entity has at the start
    of the tick together with the collider radius; every one of the up to 5
    get_first_collision calls of the tick receives that same stale bound,
    which is not rebuilt from the position advanced by earlier sub-steps. -/
theorem claim_C3_bound_from_tick_start (delta_seconds : ℝ) (index : ℕ)
    (position : Vec3) (velocity : Option Vec2)
    (knockback : Option Knockbackable) (radius : ℝ)
    (movables : List MovableEntry) (static_objects : List StaticEntry) :
    ((process_movable delta_seconds index position velocity knockback radius
          movables static_objects).2).map Prod.fst
      = List.replicate
          ((process_movable delta_seconds index position velocity knockback
              radius movables static_objects).2).length
          (Circle.mk position.xz radius) := by
  simp only [process_movable]
  exact run_substeps_bound_const index ⟨position.xz, radius⟩ movables
    static_objects MAX_TRANSLATIONS _

/-- Evaluation: the first collision query of the wall scenario (unit circle
    at (0, 2), movement (2, -2), one movable entity which is skipped by
    index, one wall segment) returns the wall hit at time one half. -/
theorem gfc_eval_wall :
    get_first_collision 0 ⟨⟨0, 2⟩, 1⟩ ⟨2, -2⟩ [⟨⟨0, 0, 2⟩, 1⟩]
        [⟨[⟨⟨-10, 0⟩, ⟨10, 0⟩⟩]⟩]
      = (1 / 2, Collision.withLineSegment ⟨⟨-10, 0⟩, ⟨10, 0⟩⟩) := by
  have hpt : penetration_time_circle_point ⟨⟨0, 2⟩, 1⟩ ⟨-10, 0⟩ ⟨2, -2⟩
      = Option.none :=
    ctp_none_of_dot_nonpos _ _ _ (by norm_num [dot])
  norm_num [get_first_collision, static_candidate, segment_candidates,
    dynamic_candidate, ctl_eval_wall, hpt, min_by, min_by_step,
    List.reduceOption, List.filterMap, List.enum, List.enumFrom, List.foldl]

/-- Evaluation: one iteration of the loop in the wall scenario: advance to
    the wall at time one half and slide, leaving movement (1, 0) and
    velocity (2, 0). -/
theorem substep_update_eval_wall :
    substep_update 0 ⟨⟨0, 2⟩, 1⟩ [⟨⟨0, 0, 2⟩, 1⟩] [⟨[⟨⟨-10, 0⟩, ⟨10, 0⟩⟩]⟩]
        ⟨⟨0, 0, 2⟩, ⟨2, -2⟩, ⟨2, -2⟩⟩
      = ⟨⟨1, 0, 1⟩, ⟨2, 0⟩, ⟨1, 0⟩⟩ := by
  simp only [substep_update, gfc_eval_wall]
  norm_num [LineSegment.get_normal_scaled, LineSegment.direction,
    get_perpendicular, get_projection, dot, magnitude2, Vec2.mk.injEq,
    Vec3.mk.injEq, MovState.mk.injEq, Vec3.xz_def]

/-- Evaluation: the sub-step trace of the wall scenario starts with two
    iterations, both carrying the initial circle bound, the second one at
    the already-advanced position (1, 0, 1). -/
theorem trace_eval_wall :
    ∃ rest, (process_movable 1 0 ⟨0, 0, 2⟩ (some ⟨2, -2⟩) Option.none 1
        [⟨⟨0, 0, 2⟩, 1⟩] [⟨[⟨⟨-10, 0⟩, ⟨10, 0⟩⟩]⟩]).2
      = ((⟨⟨0, 2⟩, 1⟩ : Circle), (⟨0, 0, 2⟩ : Vec3))
          :: ((⟨⟨0, 2⟩, 1⟩ : Circle), (⟨1, 0, 1⟩ : Vec3)) :: rest := by
  have hmain : process_movable 1 0 ⟨0, 0, 2⟩ (some ⟨2, -2⟩) Option.none 1
      [⟨⟨0, 0, 2⟩, 1⟩] [⟨[⟨⟨-10, 0⟩, ⟨10, 0⟩⟩]⟩]
      = run_substeps 0 ⟨⟨0, 2⟩, 1⟩ [⟨⟨0, 0, 2⟩, 1⟩] [⟨[⟨⟨-10, 0⟩, ⟨10, 0⟩⟩]⟩] 5
          ⟨⟨0, 0, 2⟩, ⟨2, -2⟩, ⟨2, -2⟩⟩ := by
    simp only [process_movable, MAX_TRANSLATIONS, Option.getD, Vec3.xz_def]
    norm_num
  rw [hmain]
  rw [show (5 : ℕ) = 4 + 1 from rfl, run_substeps_succ]
  rw [if_neg (by norm_num [magnitude2, dot, MINIMUM_TRANSLATION_DISTANCE])]
  rw [substep_update_eval_wall]
  rw [show (4 : ℕ) = 3 + 1 from rfl, run_substeps_succ]
  rw [if_neg (by norm_num [magnitude2, dot, MINIMUM_TRANSLATION_DISTANCE])]
  exact ⟨_, rfl⟩

/-- Counterexample to claim C3 as stated: in the wall scenario the second
    sub-step query still receives the circle bound built at (0, 2), although
    the entity has already advanced to ground position (1, 1). -/
theorem claim_C3_counterexample :
    ¬ (∀ pr ∈ (process_movable 1 0 ⟨0, 0, 2⟩ (some ⟨2, -2⟩) Option.none 1
          [⟨⟨0, 0, 2⟩, 1⟩] [⟨[⟨⟨-10, 0⟩, ⟨10, 0⟩⟩]⟩]).2,
        pr.1 = Circle.mk pr.2.xz 1) := by
  intro h
  obtain ⟨rest, hrest⟩ := trace_eval_wall
  have hmem : ((⟨⟨0, 2⟩, 1⟩ : Circle), (⟨1, 0, 1⟩ : Vec3))
      ∈ (process_movable 1 0 ⟨0, 0, 2⟩ (some ⟨2, -2⟩) Option.none 1
          [⟨⟨0, 0, 2⟩, 1⟩] [⟨[⟨⟨-10, 0⟩, ⟨10, 0⟩⟩]⟩]).2 := by
    rw [hrest]
    exact List.mem_cons_of_mem _ (List.mem_cons_self _ _)
  have hbad := h _ hmem
  norm_num [Circle.mk.injEq, Vec2.mk.injEq, Vec3.xz_def] at hbad

end

end Saga
